import Mathlib

/-!
Verification of the chunking / embedding-storage / similarity-search core of
the `mcp-workshop` repository (files `02-vectorizacion/pdf_vectorizer.py` and
`03-mcp-server/mcp-server.py`), as a shallow embedding in Lean.

Text is modelled as `List Char` (Python `str`).  Machine floats that only
flow through the similarity computation are modelled as `ℚ`, with the
pgvector cosine-distance operator `<=>` abstracted as an arbitrary function
`dist : List ℚ → List ℚ → ℚ` and the SentenceTransformer encoder as
`encode : String → List ℚ`; every property proved below holds for all such
functions, mirroring the fact that the Python code treats both as black
boxes.
-/

/-- Helper mirroring Python `chunk.rfind(' ')`: index of the last space
character of the list, `none` when there is no space (Python returns `-1`,
which makes the guard `last_space > overlap` false for any `overlap ≥ 0`,
exactly like `none` here). -/
def rfindSpace : List Char → Option Nat
  | [] => none
  | c :: rest =>
    match rfindSpace rest with
    | some i => some (i + 1)
    | none => if c = ' ' then some 0 else none

/-- Helper mirroring Python `str.strip()`: drop leading and trailing
whitespace. -/
def pstrip (l : List Char) : List Char :=
  ((l.dropWhile Char.isWhitespace).reverse.dropWhile Char.isWhitespace).reverse

/-- One iteration of the `while` loop body of `PDFVectorizer.chunk_text`
(`02-vectorizacion/pdf_vectorizer.py`, lines 77-89).  Returns the chunk that
the iteration appends (already stripped, as the code appends
`chunk.strip()`) and the next value of `start`.  Note that when the window
is truncated at a space the code reassigns `end = start + last_space`, so
the next `start` is computed from the truncated end. -/
def chunkStep (size overlap : Nat) (text : List Char) (start : Nat) :
    List Char × Nat :=
  let endIdx := start + size
  let chunk := (text.drop start).take size
  match (if endIdx < text.length then rfindSpace chunk else none) with
  | some lastSpace =>
    if overlap < lastSpace then
      (pstrip (chunk.take lastSpace), (start + lastSpace) - overlap)
    else
      (pstrip chunk, endIdx - overlap)
  | none => (pstrip chunk, endIdx - overlap)

/-- The `while start < text_length` loop of `PDFVectorizer.chunk_text`,
with explicit fuel (the Python loop has none; the termination theorem below
shows fuel `text.length` is always enough when `overlap < size`).  Returns
`none` when the fuel runs out before the loop exits. -/
def chunkLoop (size overlap : Nat) (text : List Char) :
    Nat → Nat → Option (List (List Char))
  | 0, start => if start < text.length then none else some []
  | fuel + 1, start =>
    if start < text.length then
      match chunkLoop size overlap text fuel (chunkStep size overlap text start).2 with
      | none => none
      | some rest => some ((chunkStep size overlap text start).1 :: rest)
    else some []

/-- `PDFVectorizer.chunk_text`: run the loop from `start = 0` and filter out
empty chunks (the code ends with `[c for c in chunks if c]`).  `size` and
`overlap` stand for the instance attributes `chunk_size` and
`chunk_overlap` (500 and 50 in `__init__`). -/
def chunk_text (size overlap : Nat) (text : List Char) :
    Option (List (List Char)) :=
  (chunkLoop size overlap text text.length 0).map (·.filter (fun c => !c.isEmpty))

/-- One row of the `document_chunks` table: `(document_name, chunk_text,
chunk_index, embedding, metadata)`.  `metadata` models the JSON map passed
as `Json({})` (always empty in the code). -/
structure Record where
  document_name : String
  chunk_text : List Char
  chunk_index : Nat
  embedding : List ℚ
  metadata : List (String × String)
deriving DecidableEq

/-- `PDFVectorizer.store_chunks` (`pdf_vectorizer.py`, lines 105-142) as a
pure transformation of the table contents: the batch `INSERT` appends one
row per element of `enumerate(zip(chunks, embeddings))`, with `chunk_index`
the enumeration index and empty metadata.  Note `zip` silently truncates to
the shorter of the two lists and no length check is performed. -/
def store_chunks (store : List Record) (document_name : String)
    (chunks : List (List Char)) (embeddings : List (List ℚ)) : List Record :=
  store ++ (chunks.zip embeddings).enum.map
    (fun p => ⟨document_name, p.2.1, p.1, p.2.2, []⟩)

/-- Lexicographic comparison of character lists by code point, modelling
the `ORDER BY document_name` collation of the catalog query. -/
def lexLe : List Char → List Char → Bool
  | [], _ => true
  | _ :: _, [] => false
  | a :: as, b :: bs => if a = b then lexLe as bs else decide (a < b)

/-- Lexicographic comparison of document names. -/
def strLe (a b : String) : Bool := lexLe a.data b.data

/-- The catalog query `list_documents` of `mcp-server.py` (lines 86-108):
`SELECT document_name, COUNT(*) FROM document_chunks GROUP BY document_name
ORDER BY document_name` — one `(document_id, chunk_count)` row per distinct
document name, sorted ascending, the count being the number of rows sharing
that name. -/
def list_documents (store : List Record) : List (String × Nat) :=
  ((store.map Record.document_name).dedup.mergeSort strLe).map
    (fun n => (n, store.countP (fun r => r.document_name == n)))

/-- One formatted result of the semantic search: the dictionary
`{'document': ..., 'text': ..., 'similarity': ...}` built by
`search_documents`. -/
structure SearchResult where
  document : String
  text : List Char
  similarity : ℚ
deriving DecidableEq

/-- `search_documents` of `mcp-server.py` (lines 34-83).  The SQL keeps the
rows whose similarity `1 - (embedding <=> query)` exceeds `threshold`,
orders them by distance `embedding <=> query` ascending (equivalently by
similarity descending) and limits the output to `top_k` rows; the Python
then formats each row.  `dist` stands for the pgvector cosine-distance
operator `<=>` and `encode` for `embedding_model.encode`, both black boxes
to this code. -/
def search_documents (dist : List ℚ → List ℚ → ℚ) (encode : String → List ℚ)
    (store : List Record) (query : String) (top_k : Nat) (threshold : ℚ) :
    List SearchResult :=
  let q := encode query
  let filtered := store.filter (fun r => decide (threshold < 1 - dist q r.embedding))
  let sorted := filtered.mergeSort
    (fun a b => decide (dist q a.embedding ≤ dist q b.embedding))
  (sorted.take top_k).map
    (fun r => ⟨r.document_name, r.chunk_text, 1 - dist q r.embedding⟩)

/-- Error kinds that can escape `generate_embeddings` (the model call) or
`store_chunks` (the database write) in `process_pdf`; neither call is
wrapped in a `try`, so such an exception propagates. -/
inductive PipelineError where
  | embeddingError
  | storeError
deriving DecidableEq

/-- Observable per-document outcome of `process_pdf`: the document was
skipped because no text could be extracted, or its chunks were stored. -/
inductive DocResult where
  | skipped
  | stored (numChunks : Nat)
deriving DecidableEq

/-- `PDFVectorizer.process_pdf` (`pdf_vectorizer.py`, lines 144-175).
`extract` models `extract_text_from_pdf`, which catches its own exceptions
and returns the empty string on failure, so extraction failure shows up
here as empty text and leads to an early `return` (a skip).  `embed` models
`generate_embeddings` and `storeOp` the database write of `store_chunks`;
the code has no `try` around either, so their errors propagate (`Except`
error).  Chunking uses the configured `chunk_size = 500`,
`chunk_overlap = 50`; `getD []` is justified by the termination theorem
(`50 < 500` means the fuelled loop always succeeds). -/
def process_pdf (extract : String → List Char)
    (embed : List (List Char) → Except PipelineError (List (List ℚ)))
    (storeOp : String → List (List Char) → List (List ℚ) →
      Except PipelineError Unit)
    (pdf : String) : Except PipelineError DocResult :=
  let text := extract pdf
  if text = [] then Except.ok DocResult.skipped
  else
    let chunks := (chunk_text 500 50 text).getD []
    match embed chunks with
    | Except.error e => Except.error e
    | Except.ok embs =>
      match storeOp pdf chunks embs with
      | Except.error e => Except.error e
      | Except.ok _ => Except.ok (DocResult.stored chunks.length)

/-- `PDFVectorizer.process_directory` (`pdf_vectorizer.py`, lines 177-195):
a plain `for` loop over the documents with no `try`, so the first
propagating exception aborts the whole batch (an `Except.error` result);
otherwise the per-document outcomes are collected in order. -/
def process_directory (extract : String → List Char)
    (embed : List (List Char) → Except PipelineError (List (List ℚ)))
    (storeOp : String → List (List Char) → List (List ℚ) →
      Except PipelineError Unit) :
    List String → Except PipelineError (List DocResult)
  | [] => Except.ok []
  | pdf :: rest =>
    match process_pdf extract embed storeOp pdf with
    | Except.error e => Except.error e
    | Except.ok r =>
      match process_directory extract embed storeOp rest with
      | Except.error e => Except.error e
      | Except.ok rs => Except.ok (r :: rs)

/-- Outcome of the `search_documents` branch of `call_tool` in
`mcp-server.py` (lines 156-185): either the user-facing error text that the
branch returns when the `query` argument is falsy (missing or the empty
string), or the formatted listing built from the search results. -/
inductive ToolOutput where
  | missingQueryError
  | searchResponse (results : List SearchResult)
deriving DecidableEq

/-- The `search_documents` branch of `call_tool` (`mcp-server.py`, lines
156-185).  `queryArg` is `arguments.get("query")`: `none` when the key is
absent.  The guard is Python's `if not query:`, which fires both on `None`
and on the empty string; only past the guard does the code embed the query
and contact the store via `search_documents`. -/
def call_tool_search (dist : List ℚ → List ℚ → ℚ) (encode : String → List ℚ)
    (store : List Record) (queryArg : Option String) (top_k : Nat)
    (threshold : ℚ) : ToolOutput :=
  match queryArg with
  | none => ToolOutput.missingQueryError
  | some q =>
    if q = "" then ToolOutput.missingQueryError
    else ToolOutput.searchResponse
      (search_documents dist encode store q top_k threshold)

/-- Concrete behaviour of the chunker on the spec's worked example: the
truncated-end advance makes the cursor go `0 → 2 → 7 → 14`, producing
three chunks (the spec predicted `0 → 7` after the first). -/
theorem chunk_text_spec_example :
    chunk_text 9 2 ("aaaa bbbb cccc".toList) =
      some ["aaaa".toList, "aa bbbb".toList, "bb cccc".toList] ∧
    chunk_text 9 2 [] = some [] := by decide

/-- The stripped chunk is never longer than the list it was stripped from. -/
theorem pstrip_length_le (l : List Char) : (pstrip l).length ≤ l.length := by
  unfold pstrip
  calc ((l.dropWhile Char.isWhitespace).reverse.dropWhile Char.isWhitespace).reverse.length
      = ((l.dropWhile Char.isWhitespace).reverse.dropWhile Char.isWhitespace).length := by
        rw [List.length_reverse]
    _ ≤ (l.dropWhile Char.isWhitespace).reverse.length :=
        (List.dropWhile_sublist _).length_le
    _ = (l.dropWhile Char.isWhitespace).length := by rw [List.length_reverse]
    _ ≤ l.length := (List.dropWhile_sublist _).length_le

/-- Each loop iteration strictly advances the cursor whenever
`overlap < size` (the space-truncation branch fires only when
`overlap < lastSpace`). -/
theorem chunkStep_start_lt (size overlap : Nat) (text : List Char) (start : Nat)
    (h : overlap < size) : start < (chunkStep size overlap text start).2 := by
  unfold chunkStep
  dsimp only
  split
  · split
    · dsimp only
      omega
    · dsimp only
      omega
  · dsimp only
    omega

/-- Every chunk an iteration emits has length at most `size`. -/
theorem chunkStep_fst_length_le (size overlap : Nat) (text : List Char) (start : Nat) :
    ((chunkStep size overlap text start).1).length ≤ size := by
  unfold chunkStep
  dsimp only
  split
  · split
    · dsimp only
      calc (pstrip (((text.drop start).take size).take _)).length
          ≤ (((text.drop start).take size).take _).length := pstrip_length_le _
        _ ≤ ((text.drop start).take size).length := (List.take_sublist _ _).length_le
        _ ≤ size := List.length_take_le _ _
    · dsimp only
      exact le_trans (pstrip_length_le _) (List.length_take_le _ _)
  · dsimp only
    exact le_trans (pstrip_length_le _) (List.length_take_le _ _)

/-- When the cursor has reached the end of the text the loop exits at once,
whatever fuel is left. -/
theorem chunkLoop_of_le (size overlap : Nat) (text : List Char) (fuel start : Nat)
    (h : text.length ≤ start) : chunkLoop size overlap text fuel start = some [] := by
  cases fuel <;> simp [chunkLoop, Nat.not_lt.mpr h]

/-- Fuel `text.length - start` always suffices when `overlap < size`. -/
theorem chunkLoop_isSome (size overlap : Nat) (text : List Char) (h : overlap < size) :
    ∀ fuel start, text.length ≤ start + fuel →
      (chunkLoop size overlap text fuel start).isSome = true := by
  intro fuel
  induction fuel with
  | zero =>
    intro start hs
    rw [chunkLoop_of_le size overlap text 0 start (by omega)]
    rfl
  | succ f ih =>
    intro start hs
    by_cases hlt : start < text.length
    · have hadv := chunkStep_start_lt size overlap text start h
      have hrec := ih (chunkStep size overlap text start).2 (by omega)
      rw [chunkLoop, if_pos hlt]
      cases hr : chunkLoop size overlap text f (chunkStep size overlap text start).2 with
      | none => rw [hr] at hrec; simp at hrec
      | some rest => simp
    · rw [chunkLoop, if_neg hlt]
      rfl

/-- All chunks collected by the loop have length at most `size`. -/
theorem chunkLoop_mem_length (size overlap : Nat) (text : List Char) :
    ∀ fuel start cs, chunkLoop size overlap text fuel start = some cs →
      ∀ c ∈ cs, c.length ≤ size := by
  intro fuel
  induction fuel with
  | zero =>
    intro start cs hcs c hc
    rw [chunkLoop] at hcs
    split at hcs
    · exact absurd hcs (by simp)
    · cases hcs
      simp at hc
  | succ f ih =>
    intro start cs hcs c hc
    rw [chunkLoop] at hcs
    split at hcs
    · cases hr : chunkLoop size overlap text f (chunkStep size overlap text start).2 with
      | none => rw [hr] at hcs; exact absurd hcs (by simp)
      | some rest =>
        rw [hr] at hcs
        cases hcs
        rcases List.mem_cons.mp hc with hl | hr2
        · subst hl
          exact chunkStep_fst_length_le size overlap text start
        · exact ih (chunkStep size overlap text start).2 rest hr c hr2
    · cases hcs
      simp at hc

/-- C3 counterexample: in `chunk_text("aaaa bbbb cccc", size=9, overlap=2)`
the first iteration emits `"aaaa"` but advances the cursor to `2`, not to
`start + size - overlap = 7`: the code reassigns `end = start + last_space`
before computing `start = end - overlap`. -/
theorem c3_counterexample :
    (chunkStep 9 2 ("aaaa bbbb cccc".toList) 0).1 = "aaaa".toList ∧
    (chunkStep 9 2 ("aaaa bbbb cccc".toList) 0).2 = 2 ∧
    (2 : Nat) ≠ 0 + 9 - 2 := by decide

/-- C3 (amended): in an iteration whose window is truncated at the last
space (position `lastSpace > overlap`, window not final), the cursor is
advanced to `(truncated window end) - overlap = start + lastSpace -
overlap`, not to `start + size - overlap`. -/
theorem c3_truncated_advance (size overlap : Nat) (text : List Char)
    (start lastSpace : Nat)
    (h1 : start + size < text.length)
    (h2 : rfindSpace ((text.drop start).take size) = some lastSpace)
    (h3 : overlap < lastSpace) :
    (chunkStep size overlap text start).2 = start + lastSpace - overlap := by
  unfold chunkStep
  dsimp only
  rw [if_pos h1, h2]
  dsimp only
  rw [if_pos h3]

/-- C3 witness: the spec's own example, first iteration: the next cursor is
`0 + 4 - 2 = 2`. -/
theorem c3_witness :
    (chunkStep 9 2 ("aaaa bbbb cccc".toList) 0).2 = 0 + 4 - 2 :=
  c3_truncated_advance 9 2 ("aaaa bbbb cccc".toList) 0 4 (by decide) (by decide)
    (by decide)

/-- C6 counterexample: a live iteration (cursor inside the text) that
advances the cursor by only `2 < size - overlap = 7`. -/
theorem c6_counterexample :
    0 < ("aaaa bbbb cccc".toList).length ∧
    (chunkStep 9 2 ("aaaa bbbb cccc".toList) 0).2 - 0 < 9 - 2 := by decide

/-- C6 (amended): for `overlap < size` every iteration advances the cursor
by at least 1 (only untruncated iterations advance by `size - overlap`), so
the loop terminates within `len(text)` iterations: running it with fuel
`text.length` succeeds. -/
theorem c6_terminates (size overlap : Nat) (text : List Char) (start : Nat)
    (h : overlap < size) :
    start < (chunkStep size overlap text start).2 ∧
    (chunk_text size overlap text).isSome = true := by
  refine ⟨chunkStep_start_lt size overlap text start h, ?_⟩
  have hs := chunkLoop_isSome size overlap text h text.length 0 (by omega)
  rcases Option.isSome_iff_exists.mp hs with ⟨v, hv⟩
  unfold chunk_text
  rw [hv]
  rfl

/-- C6 witness: the amended termination statement at the spec's example. -/
theorem c6_witness :
    0 < (chunkStep 9 2 ("aaaa bbbb cccc".toList) 0).2 ∧
    (chunk_text 9 2 ("aaaa bbbb cccc".toList)).isSome = true :=
  c6_terminates 9 2 ("aaaa bbbb cccc".toList) 0 (by decide)

set_option maxRecDepth 10000 in
/-- C4 counterexample: a non-empty 460-character text, strictly shorter
than the chunk size 500, for which `chunk_text` returns two chunks — the
whole text and a 10-character tail — because after the first window the
cursor is `500 - 50 = 450 < 460` and the loop runs again. -/
theorem c4_counterexample :
    List.replicate 460 'a' ≠ ([] : List Char) ∧
    (List.replicate 460 'a').length < 500 ∧
    chunk_text 500 50 (List.replicate 460 'a') =
      some [List.replicate 460 'a', List.replicate 10 'a'] := by decide

/-- C4 (amended): a non-empty text of length at most `size - overlap`
yields exactly one chunk, the whole trimmed text (or no chunk at all when
the trimmed text is empty). -/
theorem c4_short_text (size overlap : Nat) (text : List Char)
    (hne : text ≠ []) (hlen : text.length ≤ size - overlap)
    (hov : overlap < size) :
    chunk_text size overlap text =
      some (if pstrip text = [] then [] else [pstrip text]) := by
  have hpos : 0 < text.length := List.length_pos.mpr hne
  have hsz : text.length ≤ size := by omega
  have hstep : chunkStep size overlap text 0 = (pstrip text, size - overlap) := by
    unfold chunkStep
    dsimp only
    rw [if_neg (by omega : ¬ 0 + size < text.length)]
    rw [List.drop_zero, List.take_of_length_le hsz]
    dsimp only
    rw [Nat.zero_add]
  obtain ⟨n, hn⟩ : ∃ n, text.length = n + 1 := ⟨text.length - 1, by omega⟩
  unfold chunk_text
  rw [hn, chunkLoop, if_pos (by omega : 0 < text.length), hstep]
  dsimp only
  rw [chunkLoop_of_le size overlap text n (size - overlap) (by omega)]
  dsimp only [Option.map_some]
  cases hps : pstrip text with
  | nil => simp
  | cons c cs => simp

/-- C4 witness: the amended one-chunk statement at a concrete short text. -/
theorem c4_witness :
    chunk_text 9 2 ("hello".toList) =
      some (if pstrip ("hello".toList) = [] then []
            else [pstrip ("hello".toList)]) :=
  c4_short_text 9 2 ("hello".toList) (by decide) (by decide) (by decide)

/-- C9: with the configured `chunk_size = 500` and `chunk_overlap = 50`,
every chunk `chunk_text` returns has length at most 500: each window is
clipped to `size` characters and space-truncation and trimming only
shorten it. -/
theorem c9_chunk_length_le (text : List Char) (cs : List (List Char))
    (c : List Char) (hcs : chunk_text 500 50 text = some cs) (hc : c ∈ cs) :
    c.length ≤ 500 := by
  unfold chunk_text at hcs
  rcases Option.map_eq_some'.mp hcs with ⟨l, hl, rfl⟩
  exact chunkLoop_mem_length 500 50 text text.length 0 l hl c
    (List.mem_filter.mp hc).1

/-- C9 witness: the length bound at a concrete two-character text. -/
theorem c9_witness : ("hi".toList).length ≤ 500 :=
  c9_chunk_length_le ("hi".toList) ["hi".toList] ("hi".toList) (by decide)
    (by decide)

/-- C1 counterexample: storing 3 chunks with only 2 vectors raises nothing
and inserts 2 rows — the truncated pairing of the first two chunks with the
two vectors — instead of storing nothing. -/
theorem c1_counterexample :
    store_chunks [] "doc" [['a'], ['b'], ['c']] [[(1 : ℚ)], [(2 : ℚ)]] =
      [⟨"doc", ['a'], 0, [(1 : ℚ)], []⟩, ⟨"doc", ['b'], 1, [(2 : ℚ)], []⟩] ∧
    store_chunks [] "doc" [['a'], ['b'], ['c']] [[(1 : ℚ)], [(2 : ℚ)]] ≠ [] := by
  constructor
  · rfl
  · decide

/-- C1 (amended): `store_chunks` never fails on a length mismatch; it
silently appends `min len(chunks) len(vectors)` rows, pairing the lists up
to the shorter length (in particular 3 chunks with 2 vectors store exactly
2 rows). -/
theorem c1_store_chunks_truncates (store : List Record) (d : String)
    (chunks : List (List Char)) (embeddings : List (List ℚ)) :
    (store_chunks store d chunks embeddings).length =
      store.length + min chunks.length embeddings.length ∧
    (store_chunks [] "doc" [['a'], ['b'], ['c']] [[(1 : ℚ)], [(2 : ℚ)]]).length = 2 := by
  constructor
  · simp [store_chunks]
  · rfl

/-- Transitivity of the lexicographic comparison. -/
theorem lexLe_trans : ∀ a b c : List Char,
    lexLe a b = true → lexLe b c = true → lexLe a c = true := by
  intro a
  induction a with
  | nil => intro b c _ _; rfl
  | cons x xs ih =>
    intro b c hab hbc
    cases b with
    | nil => simp [lexLe] at hab
    | cons y ys =>
      cases c with
      | nil => simp [lexLe] at hbc
      | cons z zs =>
        rw [lexLe] at hab hbc ⊢
        by_cases hxy : x = y
        · subst hxy
          rw [if_pos rfl] at hab
          by_cases hxz : x = z
          · subst hxz
            rw [if_pos rfl] at hbc ⊢
            exact ih ys zs hab hbc
          · rw [if_neg hxz] at hbc ⊢
            exact hbc
        · rw [if_neg hxy] at hab
          have hlt : x < y := of_decide_eq_true hab
          by_cases hyz : y = z
          · subst hyz
            rw [if_neg hxy]
            exact hab
          · rw [if_neg hyz] at hbc
            have hlt2 : y < z := of_decide_eq_true hbc
            have hxz : x < z := lt_trans hlt hlt2
            rw [if_neg (ne_of_lt hxz)]
            exact decide_eq_true hxz

/-- Totality of the lexicographic comparison. -/
theorem lexLe_total : ∀ a b : List Char, (lexLe a b || lexLe b a) = true := by
  intro a
  induction a with
  | nil => intro b; rfl
  | cons x xs ih =>
    intro b
    cases b with
    | nil => rfl
    | cons y ys =>
      rw [lexLe, lexLe]
      by_cases hxy : x = y
      · subst hxy
        rw [if_pos rfl, if_pos rfl]
        exact ih ys
      · rw [if_neg hxy, if_neg (Ne.symm hxy)]
        rcases lt_or_gt_of_ne hxy with h | h
        · rw [decide_eq_true h]
          rfl
        · rw [decide_eq_true h]
          simp

/-- C7 counterexample: with `N = 0` the round-trip fails — storing 0 chunks
with 0 vectors for a fresh document `"d"` leaves the catalog empty, so no
`chunk_count == 0` row is reported for `"d"`. -/
theorem c7_counterexample :
    list_documents (store_chunks [] "d" [] []) = [] ∧
    ("d", 0) ∉ list_documents (store_chunks [] "d" [] []) := by
  have h : list_documents (store_chunks [] "d" [] []) = [] := by
    simp [list_documents, store_chunks]
  rw [h]
  exact ⟨rfl, by simp⟩

/-- C7 (amended): for `N ≥ 1`, storing `N` chunks paired with `N` vectors
for a document `d` with no previously stored records makes the catalog
report `chunk_count = N` for `d`, and the catalog rows are sorted
lexicographically ascending by document id.  (For `N = 0` nothing is
inserted and `d` simply does not appear.) -/
theorem c7_round_trip (store : List Record) (d : String)
    (chunks : List (List Char)) (vectors : List (List ℚ)) (N : Nat)
    (hfresh : ∀ r ∈ store, r.document_name ≠ d)
    (hc : chunks.length = N) (hv : vectors.length = N) (hN : 0 < N) :
    (d, N) ∈ list_documents (store_chunks store d chunks vectors) ∧
    List.Pairwise (fun a b => strLe a b = true)
      ((list_documents (store_chunks store d chunks vectors)).map Prod.fst) := by
  have hlen : ((chunks.zip vectors).enum.map
      (fun p => (⟨d, p.2.1, p.1, p.2.2, []⟩ : Record))).length = N := by
    simp [List.length_zip, hc, hv]
  have hcount : (store_chunks store d chunks vectors).countP
      (fun r => r.document_name == d) = N := by
    unfold store_chunks
    rw [List.countP_append]
    have h0 : store.countP (fun r => r.document_name == d) = 0 :=
      List.countP_eq_zero.mpr (fun r hr => by
        simp only [beq_iff_eq]
        exact hfresh r hr)
    have h1 : ((chunks.zip vectors).enum.map
        (fun p => (⟨d, p.2.1, p.1, p.2.2, []⟩ : Record))).countP
        (fun r => r.document_name == d) = N := by
      rw [List.countP_eq_length.mpr, hlen]
      intro r hr
      rcases List.mem_map.mp hr with ⟨p, _, rfl⟩
      simp
    omega
  have hmem : d ∈ (store_chunks store d chunks vectors).map Record.document_name := by
    unfold store_chunks
    rw [List.map_append]
    refine List.mem_append_right _ ?_
    have hne : ((chunks.zip vectors).enum.map
        (fun p => (⟨d, p.2.1, p.1, p.2.2, []⟩ : Record))) ≠ [] := by
      intro h
      rw [h] at hlen
      simp at hlen
      omega
    rcases List.exists_mem_of_ne_nil _ hne with ⟨r, hr⟩
    rcases List.mem_map.mp hr with ⟨p, hp, rfl⟩
    exact List.mem_map.mpr ⟨_, hr, rfl⟩
  constructor
  · have hd : d ∈ ((store_chunks store d chunks vectors).map
        Record.document_name).dedup.mergeSort strLe :=
      (List.mergeSort_perm _ _).mem_iff.mpr (List.mem_dedup.mpr hmem)
    unfold list_documents
    refine List.mem_map.mpr ⟨d, hd, ?_⟩
    show (d, _) = (d, N)
    rw [hcount]
  · unfold list_documents
    have hid : (Prod.fst ∘ fun n => (n, (store_chunks store d chunks vectors).countP
        (fun r => r.document_name == n))) = id := rfl
    rw [List.map_map, hid, List.map_id]
    exact List.sorted_mergeSort
      (fun a b c hab hbc => lexLe_trans a.data b.data c.data hab hbc)
      (fun a b => lexLe_total a.data b.data) _

/-- C7 witness: one chunk and one vector for a fresh document `"d"`. -/
theorem c7_witness :
    ("d", 1) ∈ list_documents (store_chunks [] "d" [['x']] [[(1 : ℚ)]]) ∧
    List.Pairwise (fun a b => strLe a b = true)
      ((list_documents (store_chunks [] "d" [['x']] [[(1 : ℚ)]])).map Prod.fst) :=
  c7_round_trip [] "d" [['x']] [[(1 : ℚ)]] 1 (by simp) rfl rfl (by decide)

/-- Unfolding of `search_documents` with the query vector written out. -/
theorem search_documents_eq (dist : List ℚ → List ℚ → ℚ)
    (encode : String → List ℚ) (store : List Record) (query : String)
    (top_k : Nat) (threshold : ℚ) :
    search_documents dist encode store query top_k threshold =
      ((((store.filter
          (fun r => decide (threshold < 1 - dist (encode query) r.embedding))).mergeSort
          (fun a b => decide (dist (encode query) a.embedding ≤
            dist (encode query) b.embedding))).take top_k).map
        (fun r => ⟨r.document_name, r.chunk_text,
          1 - dist (encode query) r.embedding⟩)) := rfl

/-- C5: for every query, `top_k > 0` and `threshold ∈ [0,1]` (and any
behaviour of the embedding model and distance operator), the search returns
a sequence ordered by descending similarity, of length at most `top_k`,
every entry's similarity strictly greater than `threshold`; an empty
candidate set yields the empty sequence as a normal outcome. -/
theorem c5_search_contract (dist : List ℚ → List ℚ → ℚ)
    (encode : String → List ℚ) (store : List Record) (query : String)
    (top_k : Nat) (threshold : ℚ) (htop : 0 < top_k)
    (hth0 : 0 ≤ threshold) (hth1 : threshold ≤ 1) :
    (search_documents dist encode store query top_k threshold).length ≤ top_k ∧
    (∀ r ∈ search_documents dist encode store query top_k threshold,
      threshold < r.similarity) ∧
    List.Pairwise (fun a b : SearchResult => b.similarity ≤ a.similarity)
      (search_documents dist encode store query top_k threshold) ∧
    (store.filter (fun r => decide (threshold < 1 - dist (encode query) r.embedding)) = [] →
      search_documents dist encode store query top_k threshold = []) := by
  have hsorted : List.Pairwise
      (fun a b : Record => decide (dist (encode query) a.embedding ≤
        dist (encode query) b.embedding) = true)
      ((store.filter
        (fun r => decide (threshold < 1 - dist (encode query) r.embedding))).mergeSort
        (fun a b => decide (dist (encode query) a.embedding ≤
          dist (encode query) b.embedding))) :=
    by
    refine List.sorted_mergeSort ?_ ?_ _
    · intro a b c hab hbc
      exact decide_eq_true (le_trans (of_decide_eq_true hab) (of_decide_eq_true hbc))
    · intro a b
      rcases le_total (dist (encode query) a.embedding)
        (dist (encode query) b.embedding) with h | h
      · rw [decide_eq_true h]
        rfl
      · rw [decide_eq_true h]
        simp
  refine ⟨?_, ?_, ?_, ?_⟩
  · rw [search_documents_eq]
    rw [List.length_map]
    exact List.length_take_le _ _
  · intro r hr
    rw [search_documents_eq] at hr
    rcases List.mem_map.mp hr with ⟨x, hx, rfl⟩
    have hx2 := (List.take_sublist _ _).subset hx
    have hx3 := (List.mergeSort_perm _ _).mem_iff.mp hx2
    exact of_decide_eq_true (List.mem_filter.mp hx3).2
  · rw [search_documents_eq]
    rw [List.pairwise_map]
    refine List.Pairwise.imp ?_ (List.Pairwise.sublist (List.take_sublist _ _) hsorted)
    intro a b hab
    have hd : dist (encode query) a.embedding ≤ dist (encode query) b.embedding :=
      of_decide_eq_true hab
    show 1 - dist (encode query) b.embedding ≤ 1 - dist (encode query) a.embedding
    linarith
  · intro hempty
    rw [search_documents_eq, hempty, List.mergeSort_nil, List.take_nil, List.map_nil]

/-- C5 witness: the contract at a one-record store with constant zero
distance, `top_k = 1`, `threshold = 1/2`. -/
theorem c5_witness :
    (search_documents (fun _ _ => 0) (fun _ => []) [⟨"d", ['t'], 0, [], []⟩]
      "q" 1 (1/2)).length ≤ 1 ∧
    (∀ r ∈ search_documents (fun _ _ => 0) (fun _ => []) [⟨"d", ['t'], 0, [], []⟩]
      "q" 1 (1/2), (1/2 : ℚ) < r.similarity) ∧
    List.Pairwise (fun a b : SearchResult => b.similarity ≤ a.similarity)
      (search_documents (fun _ _ => 0) (fun _ => []) [⟨"d", ['t'], 0, [], []⟩]
        "q" 1 (1/2)) ∧
    (([⟨"d", ['t'], 0, [], []⟩] : List Record).filter
        (fun r => decide ((1/2 : ℚ) <
          1 - (fun _ _ => (0 : ℚ)) ((fun _ => ([] : List ℚ)) "q") r.embedding)) = [] →
      search_documents (fun _ _ => 0) (fun _ => []) [⟨"d", ['t'], 0, [], []⟩]
        "q" 1 (1/2) = []) :=
  c5_search_contract (fun _ _ => 0) (fun _ => []) [⟨"d", ['t'], 0, [], []⟩]
    "q" 1 (1/2) (by decide) (by norm_num) (by norm_num)

/-- The number of search results is the threshold-filtered candidate count
capped at `top_k`. -/
theorem search_documents_length (dist : List ℚ → List ℚ → ℚ)
    (encode : String → List ℚ) (store : List Record) (query : String)
    (top_k : Nat) (threshold : ℚ) :
    (search_documents dist encode store query top_k threshold).length =
      min top_k ((store.filter
        (fun r => decide (threshold < 1 - dist (encode query) r.embedding))).length) := by
  rw [search_documents_eq, List.length_map, List.length_take,
    (List.mergeSort_perm _ _).length_eq]

/-- C8: for a fixed query and store snapshot, raising `threshold` never
increases the number of results, and raising `top_k` never decreases it
(the count is the number of candidates above threshold capped at `top_k`). -/
theorem c8_monotone (dist : List ℚ → List ℚ → ℚ) (encode : String → List ℚ)
    (store : List Record) (query : String) (k k1 k2 : Nat) (t t1 t2 : ℚ)
    (ht : t1 ≤ t2) (hk : k1 ≤ k2) :
    (search_documents dist encode store query k t2).length ≤
      (search_documents dist encode store query k t1).length ∧
    (search_documents dist encode store query k1 t).length ≤
      (search_documents dist encode store query k2 t).length := by
  constructor
  · rw [search_documents_length, search_documents_length]
    refine min_le_min (le_refl k) ?_
    refine List.Sublist.length_le (List.monotone_filter_right store ?_)
    intro a ha
    have h2 := of_decide_eq_true ha
    exact decide_eq_true (by linarith)
  · rw [search_documents_length, search_documents_length]
    exact min_le_min hk (le_refl _)

/-- C8 witness: monotonicity at a concrete store and parameters. -/
theorem c8_witness :
    (search_documents (fun _ _ => 0) (fun _ => []) [⟨"d", ['t'], 0, [], []⟩]
      "q" 1 1).length ≤
      (search_documents (fun _ _ => 0) (fun _ => []) [⟨"d", ['t'], 0, [], []⟩]
        "q" 1 0).length ∧
    (search_documents (fun _ _ => 0) (fun _ => []) [⟨"d", ['t'], 0, [], []⟩]
      "q" 1 0).length ≤
      (search_documents (fun _ _ => 0) (fun _ => []) [⟨"d", ['t'], 0, [], []⟩]
        "q" 2 0).length :=
  c8_monotone (fun _ _ => 0) (fun _ => []) [⟨"d", ['t'], 0, [], []⟩] "q"
    1 1 2 0 0 1 (by norm_num) (by decide)

/-- C2 counterexample: a batch of two extractable documents where the
embedding computation fails on the first one.  The whole batch aborts with
the embedding error — no skip is recorded and the second document is never
processed. -/
theorem c2_counterexample :
    process_directory (fun _ => ['x'])
      (fun _ => Except.error PipelineError.embeddingError)
      (fun _ _ _ => Except.ok ()) ["a", "b"] =
      Except.error PipelineError.embeddingError := by rfl

/-- C2 (amended): only extraction failures (empty extracted text) are
converted into a per-document skip with the batch continuing — when the
embedding and store calls succeed, every document of the batch is
processed, extraction failures becoming `skipped` and the rest `stored`.
A per-document `EmbeddingError` or `StoreError`, by contrast, propagates
and aborts the batch (see the counterexample). -/
theorem c2_extraction_isolated (extract : String → List Char)
    (embedF : List (List Char) → List (List ℚ)) (pdfs : List String) :
    process_directory extract (fun cs => Except.ok (embedF cs))
      (fun _ _ _ => Except.ok ()) pdfs =
      Except.ok (pdfs.map (fun p =>
        if extract p = [] then DocResult.skipped
        else DocResult.stored ((chunk_text 500 50 (extract p)).getD []).length)) := by
  induction pdfs with
  | nil => rfl
  | cons p rest ih =>
    rw [process_directory, ih]
    by_cases hp : extract p = []
    · rw [List.map_cons, if_pos hp]
      unfold process_pdf
      rw [if_pos hp]
    · rw [List.map_cons, if_neg hp]
      unfold process_pdf
      rw [if_neg hp]

/-- C10: calling the tool with a present-but-empty `query` behaves exactly
like a missing `query`: the user-facing error is returned, and the outcome
is independent of the embedding model, the distance operator and the store
contents (no embedding is computed, no store is contacted). -/
theorem c10_empty_query (dist dist2 : List ℚ → List ℚ → ℚ)
    (encode encode2 : String → List ℚ) (store store2 : List Record)
    (top_k top_k2 : Nat) (threshold threshold2 : ℚ) :
    call_tool_search dist encode store (some "") top_k threshold =
      ToolOutput.missingQueryError ∧
    call_tool_search dist encode store (some "") top_k threshold =
      call_tool_search dist2 encode2 store2 none top_k2 threshold2 := by
  exact ⟨rfl, rfl⟩
